import Mathlib

/-!
# pg_dumper: a verification development

Shallow embedding of `main.go` of `rlindooren/pg_dumper`, an HTTP wrapper around
`pg_dump`, `psql` and `pg_restore`.

Modelling decisions.

* A Go `string` is a Lean `String`, read as its sequence of characters
  (`String.data`).  The program only concatenates, splits at a space, searches
  for ASCII text and matches regular expressions, which act alike on the bytes
  and on the characters of UTF-8 text; a byte index of the source is the
  corresponding character index here.
* `regexp` is modelled for the fragment the program uses: a pattern anchored by
  `^` and `$` whose body is made of literal characters, escaped punctuation,
  `.`, `.*` and the group `(.*)`.  As in Go without flags, `.` matches every
  character except the line feed, and `$` matches only at the end of the text.
* The outside world (subprocesses, the directory listing, the environment) is a
  parameter; every subprocess or file-system operation a handler starts is
  recorded as an `Effect`.
* `log.Fatal` ends the process: `Result.fatal`.  A run-time panic (slice bounds
  out of range) is `Result.panic`.
* Writing to the log has no part in the properties below and is left out, and
  so are `main` (route registration, `ListenAndServe`) and the handler `health`.

The file has the embedding first (every definition names the lines of
`main.go` it follows), then the lemmas on the regular expressions, then the
properties of the specification.
-/

namespace PgDumper

/-! ## Results -/

/-- Ways a Go function of the program can end. -/
inductive Result (α : Type) where
  /-- normal return -/
  | ok (a : α)
  /-- the call `log.Fatal`: the message is logged and the process exits with status 1 -/
  | fatal (msg : String)
  /-- run-time panic -/
  | panic (msg : String)
  /-- a regular expression outside the modelled fragment was used -/
  | unsupported
  deriving DecidableEq, Repr

/-! ## Package `regexp` (fragment) -/

namespace regexp

/-- One element of the body of an anchored pattern. -/
inductive Node where
  /-- a literal character (written plainly or escaped) -/
  | lit (c : Char)
  /-- the pattern `.` : any character but the line feed -/
  | dot
  /-- the pattern `.*` (greedy) -/
  | dotStar
  /-- the capturing group `(.*)` (greedy) -/
  | capDotStar
  deriving DecidableEq, Repr

/-- Characters with a special meaning in a pattern. -/
def isMeta (c : Char) : Bool :=
  c ∈ ['\\', '.', '+', '*', '?', '(', ')', '|', '[', ']', '\x7b', '\x7d', '^', '$']

/-- Translate the pattern text after the leading `^`, up to and including the
final `$`.  `none`: the pattern is not in the fragment. -/
def parseBody : List Char → Option (List Node)
  | [] => none
  | [c] =>
    if c = '$' then some []
    else if c = '.' then (parseBody []).map (Node.dot :: ·)
    else if isMeta c then none
    else (parseBody []).map (Node.lit c :: ·)
  | c :: c1 :: r1 =>
    if c = '(' then
      match r1 with
      | c2 :: c3 :: r3 =>
        if c1 = '.' ∧ c2 = '*' ∧ c3 = ')' then (parseBody r3).map (Node.capDotStar :: ·) else none
      | _ => none
    else if c = '.' then
      if c1 = '*' then (parseBody r1).map (Node.dotStar :: ·)
      else (parseBody (c1 :: r1)).map (Node.dot :: ·)
    else if c = '\\' then
      if isMeta c1 then (parseBody r1).map (Node.lit c1 :: ·) else none
    else if isMeta c then none
    else (parseBody (c1 :: r1)).map (Node.lit c :: ·)

/-- The greedy loop of `.*`: consume as many characters other than the line feed
as possible, such that the continuation `k` still matches the rest.  Returns the
consumed text with the result of the continuation. -/
def matchStar {α : Type} (k : List Char → Option α) : List Char → Option (List Char × α)
  | [] => (k []).map (fun a => ([], a))
  | x :: s =>
    if x = '\n' then (k (x :: s)).map (fun a => ([], a))
    else
      match matchStar k s with
      | some (p, a) => some (x :: p, a)
      | none => (k (x :: s)).map (fun a => ([], a))

/-- Match the nodes, followed by the end of the text, against the whole of `s`.
Returns the texts of the capturing groups, in order. -/
def matchHere : List Node → List Char → Option (List (List Char))
  | [], s => if s = [] then some [] else none
  | Node.lit c :: r, s =>
    match s with
    | x :: t => if x = c then matchHere r t else none
    | [] => none
  | Node.dot :: r, s =>
    match s with
    | x :: t => if x = '\n' then none else matchHere r t
    | [] => none
  | Node.dotStar :: r, s => (matchStar (matchHere r) s).map (fun pc => pc.2)
  | Node.capDotStar :: r, s => (matchStar (matchHere r) s).map (fun pc => pc.1 :: pc.2)

/-- A compiled pattern `^body$`. -/
structure Regexp where
  /-- the body -/
  nodes : List Node
  deriving DecidableEq, Repr

/-- Function `regexp.Compile`; `none` for a pattern outside the fragment. -/
def Compile (pattern : String) : Option Regexp :=
  match pattern.data with
  | c :: r => if c = '^' then (parseBody r).map Regexp.mk else none
  | [] => none

/-- Method `(*Regexp).FindStringSubmatch`: the whole match followed by the groups, or
the empty slice when there is no match. -/
def Regexp.FindStringSubmatch (re : Regexp) (s : String) : List String :=
  match matchHere re.nodes s.data with
  | some caps => s :: caps.map String.mk
  | none => []

/-- Method `(*Regexp).MatchString`. -/
def Regexp.MatchString (re : Regexp) (s : String) : Bool :=
  (matchHere re.nodes s.data).isSome

/-- Function `regexp.MatchString(pattern, s)`; `none` for a pattern outside the fragment. -/
def MatchString (pattern : String) (s : String) : Option Bool :=
  (Compile pattern).map (fun re => re.MatchString s)

end regexp

/-! ## Packages `strings` and `fmt` -/

namespace strings

/-- The loop behind `Split` for a one-character separator. -/
def splitChars (sep : Char) : List Char → List (List Char)
  | [] => [[]]
  | c :: cs =>
    if c = sep then [] :: splitChars sep cs
    else
      match splitChars sep cs with
      | t :: ts => (c :: t) :: ts
      | [] => [[c]]

/-- Function `strings.Split(s, sep)` for a separator of one character, as the program
calls it (`sep` is `" "`): the pieces of `s` between the separators, one more
than there are separators, so `Split("", " ")` is `[""]`. -/
def Split (s : String) (sep : Char) : List String :=
  (splitChars sep s.data).map String.mk

/-- The loop behind `LastIndex`: `i` is the index of the text left, `best` the
last index found so far. -/
def lastIndexFrom (substr : List Char) : List Char → Nat → Int → Int
  | [], i, best => if substr = [] then (i : Int) else best
  | c :: cs, i, best =>
    lastIndexFrom substr cs (i + 1) (if substr.isPrefixOf (c :: cs) then (i : Int) else best)

/-- Function `strings.LastIndex(s, substr)`: the index of the last instance of `substr`
in `s`, or `-1`. -/
def LastIndex (s substr : String) : Int :=
  lastIndexFrom substr.data s.data 0 (-1)

end strings

/-- The slice expression `s[lo:hi]`, which panics when the bounds are out of
range. -/
def sliceString (s : String) (lo hi : Int) : Result String :=
  if 0 ≤ lo ∧ lo ≤ hi ∧ hi ≤ (s.length : Int) then
    Result.ok ⟨(s.data.drop lo.toNat).take (hi.toNat - lo.toNat)⟩
  else Result.panic "slice bounds out of range"

/-- The elements with `sep` between them. -/
def joinWith (sep : String) : List String → String
  | [] => ""
  | [a] => a
  | a :: b :: rest => a ++ sep ++ joinWith sep (b :: rest)

/-- The verb `%s` applied to a `[]string`: the elements between brackets,
separated by spaces. -/
def fmtStrings (args : List String) : String :=
  "[" ++ joinWith " " args ++ "]"

/-! ## Configuration -/

/-- The struct `Config` (main.go 186-193). -/
structure Config where
  /-- from the variable `HOST` -/
  host : String
  /-- from the variable `PORT` -/
  port : String
  /-- from the variable `DIR` -/
  dir : String
  /-- derived from the dump arguments -/
  dumpfileExt : String
  /-- from the variable `PG_DUMP_DATA_ARGS` -/
  dumpArgs : List String
  /-- from the variable `PG_RESTORE_ARGS` -/
  restoreArgs : List String
  deriving DecidableEq, Repr

/-- The loop of `determineDumpFileExtension`: the value of `format` after it. -/
def determineDumpFileExtension.scan (pattern : regexp.Regexp) : List String → Result String
  | [] => Result.ok ""
  | dumpArg :: rest =>
    if pattern.MatchString dumpArg then
      match (pattern.FindStringSubmatch dumpArg).get? 1 with
      | some format => Result.ok format
      | none => Result.panic "index out of range [1]"
    else determineDumpFileExtension.scan pattern rest

/-- The message of the fatal configuration error. -/
def noFormatMsg : String :=
  "No output format specified for dumping. Please provide '--format=plain', '--format=custom' or '--format=tar'"

/-- Function `determineDumpFileExtension` (main.go 243-262). -/
def determineDumpFileExtension (dumpArgs : List String) : Result String :=
  match regexp.Compile "^--format=(.*)$" with
  | none => Result.unsupported
  | some pattern =>
    match determineDumpFileExtension.scan pattern dumpArgs with
    | Result.ok format =>
      if format = "plain" then Result.ok "dump.sql"
      else if format = "custom" then Result.ok "dump.custom"
      else if format = "tar" then Result.ok "dump.tar"
      else Result.fatal noFormatMsg
    | Result.fatal msg => Result.fatal msg
    | Result.panic msg => Result.panic msg
    | Result.unsupported => Result.unsupported

/-- Function `getEnvVariableOrDefault` (main.go 210-217); `getenv` is `os.Getenv`, which
returns the empty string for a variable that is not set. -/
def getEnvVariableOrDefault (getenv : String → String) (name defaultVal : String) : String :=
  let value := getenv name
  if value.length = 0 then defaultVal else value

/-- Function `readConfig` (main.go 195-208); `tempDir` is the value of `os.TempDir()`. -/
def readConfig (getenv : String → String) (tempDir : String) : Result Config :=
  let dumpArgs := strings.Split (getEnvVariableOrDefault getenv "PG_DUMP_DATA_ARGS" "--clean --format=plain") ' '
  let restoreArgs := strings.Split (getEnvVariableOrDefault getenv "PG_RESTORE_ARGS" "") ' '
  match determineDumpFileExtension dumpArgs with
  | Result.ok dumpfileExt =>
    Result.ok
      { host := getEnvVariableOrDefault getenv "HOST" ""
        port := getEnvVariableOrDefault getenv "PORT" "8090"
        dir := getEnvVariableOrDefault getenv "DIR" tempDir
        dumpfileExt := dumpfileExt
        dumpArgs := dumpArgs
        restoreArgs := restoreArgs }
  | Result.fatal msg => Result.fatal msg
  | Result.panic msg => Result.panic msg
  | Result.unsupported => Result.unsupported

/-- Function `getAbsolutePathForDumpName` (main.go 161-163). -/
def getAbsolutePathForDumpName (config : Config) (name : String) : String :=
  config.dir ++ name ++ "." ++ config.dumpfileExt

/-! ## Requests, responses and the outside world -/

/-- The part of `http.Request` the program reads: the parsed query, in the
order of the URL. -/
structure Request where
  /-- the value of `req.URL.Query()` -/
  query : List (String × String)
  deriving DecidableEq, Repr

/-- Method `req.URL.Query().Get(key)`: the first value of the key, or the empty string. -/
def Request.queryGet (req : Request) (key : String) : String :=
  (req.query.lookup key).getD ""

/-- The state of an `http.ResponseWriter`. -/
structure ResponseWriter where
  /-- the header map -/
  header : List (String × String)
  /-- the status code, once the header is written -/
  statusCode : Option Nat
  /-- the body written so far -/
  body : String
  deriving DecidableEq, Repr

/-- The response writer a handler receives. -/
def ResponseWriter.fresh : ResponseWriter :=
  { header := [], statusCode := none, body := "" }

/-- Method `w.WriteHeader(code)`: only the first call counts. -/
def ResponseWriter.WriteHeader (w : ResponseWriter) (code : Nat) : ResponseWriter :=
  match w.statusCode with
  | none => { w with statusCode := some code }
  | some _ => w

/-- Method `w.Write`: writes the header with status 200 when it is not yet written. -/
def ResponseWriter.Write (w : ResponseWriter) (text : String) : ResponseWriter :=
  let w1 := w.WriteHeader 200
  { w1 with body := w1.body ++ text }

/-- Method `w.Header().Set(key, value)`. -/
def ResponseWriter.SetHeader (w : ResponseWriter) (key value : String) : ResponseWriter :=
  { w with header := (key, value) :: w.header.filter (fun kv => kv.1 ≠ key) }

/-- The status the client sees: 200 unless the handler wrote another one. -/
def ResponseWriter.status (w : ResponseWriter) : Nat :=
  w.statusCode.getD 200

/-- An entry of a directory listing (`fs.FileInfo`). -/
structure FileInfo where
  /-- the value of `Name()` -/
  Name : String
  /-- the value of `IsDir()` -/
  IsDir : Bool
  /-- the value of `ModTime()`, as `%s` prints it -/
  ModTime : String
  deriving DecidableEq, Repr

/-- What happens to the subprocess of `executeCommand`. -/
inductive ExecResult where
  /-- the call `cmd.StderrPipe()` returns an error -/
  | pipeError (err : String)
  /-- the call `cmd.Start()` returns an error (for instance: executable not found) -/
  | startError (err : String)
  /-- the subprocess ran: all it wrote to standard error, and the error of
  `cmd.Wait()` (`none` for exit status 0) -/
  | exited (output : String) (waitErr : Option String)
  deriving DecidableEq, Repr

/-- The outside world, as the handlers see it. -/
structure World where
  /-- the fate of a subprocess started by `executeCommand` -/
  start : String → List String → ExecResult
  /-- the error of `exec.Command(name, args...).Run()`, if any -/
  run : String → List String → Option String
  /-- the function `ioutil.ReadDir` -/
  readDir : String → Except String (List FileInfo)
  /-- the function `strconv.Quote` -/
  quote : String → String

/-- A subprocess or file-system operation started by a handler. -/
inductive Effect where
  /-- a subprocess is started -/
  | command (name : String) (args : List String)
  /-- a directory is read -/
  | readDir (dir : String)
  /-- the call `http.ServeFile` opens and serves a file -/
  | serveFile (name : String)
  deriving DecidableEq, Repr

/-- One run of a handler: the effects it had and how it ended. -/
structure HandlerRun where
  /-- subprocesses and file-system operations, in order -/
  effects : List Effect
  /-- the response writer on return, or the way the handler ended otherwise -/
  outcome : Result ResponseWriter
  deriving DecidableEq, Repr

/-- Constant `http.StatusBadRequest`. -/
def StatusBadRequest : Nat := 400

/-- Constant `http.StatusInternalServerError`. -/
def StatusInternalServerError : Nat := 500

/-- Function `handleSuccess` (main.go 228-234). -/
def handleSuccess (w : ResponseWriter) (optionalMsg : String) : ResponseWriter :=
  let w1 := w.Write ("SUCCESS" ++ "\n")
  if optionalMsg.length ≠ 0 then w1.Write (optionalMsg ++ "\n") else w1

/-- Function `handleError` (main.go 236-241). -/
def handleError (w : ResponseWriter) (statusCode : Nat) (errMsg : String) : ResponseWriter :=
  let w1 := w.WriteHeader statusCode
  let w2 := w1.Write ("ERROR" ++ "\n")
  w2.Write (errMsg ++ "\n")

/-- Function `getParamValueFromRequestExpectingItToExist` (main.go 219-226). -/
def getParamValueFromRequestExpectingItToExist (queryParamName : String) (req : Request) :
    Except String String :=
  let value := req.queryGet queryParamName
  if value.length = 0 then
    Except.error ("No value provided for query parameter '" ++ queryParamName ++ "'")
  else Except.ok value

/-- Function `executeCommand` (main.go 125-143). -/
def executeCommand (env : World) (command : String) (args : List String) (w : ResponseWriter) :
    HandlerRun :=
  match env.start command args with
  | ExecResult.pipeError err => { effects := [], outcome := Result.fatal err }
  | ExecResult.startError err =>
    { effects := [Effect.command command args], outcome := Result.fatal err }
  | ExecResult.exited output waitErr =>
    { effects := [Effect.command command args]
      outcome :=
        match waitErr with
        | some _ =>
          let errMsg := "Error executing " ++ command ++ " with arguments: " ++ fmtStrings args
            ++ "):\n" ++ output
          Result.ok (handleError w StatusInternalServerError errMsg)
        | none =>
          let msg := "Succesfully executed " ++ command ++ " with arguments: " ++ fmtStrings args
            ++ "):\n" ++ output
          Result.ok (handleSuccess w msg) }

/-- Function `createDump` (main.go 55-67). -/
def createDump (env : World) (config : Config) (w : ResponseWriter) (req : Request) : HandlerRun :=
  match getParamValueFromRequestExpectingItToExist "name" req with
  | Except.error err =>
    { effects := [], outcome := Result.ok (handleError w StatusBadRequest err) }
  | Except.ok name =>
    let fileName := getAbsolutePathForDumpName config name
    let args := config.dumpArgs ++ ["-f", fileName]
    executeCommand env "pg_dump" args w

/-- Function `restoreDump` (main.go 69-91). -/
def restoreDump (env : World) (config : Config) (w : ResponseWriter) (req : Request) : HandlerRun :=
  match getParamValueFromRequestExpectingItToExist "name" req with
  | Except.error err =>
    { effects := [], outcome := Result.ok (handleError w StatusBadRequest err) }
  | Except.ok name =>
    let fileName := getAbsolutePathForDumpName config name
    match regexp.MatchString "^.*\\.sql$" fileName with
    | none => { effects := [], outcome := Result.unsupported }
    | some sqlFile =>
      if sqlFile then executeCommand env "psql" ([] ++ ["-f", fileName]) w
      else executeCommand env "pg_restore" (([] ++ config.restoreArgs) ++ ["-f", fileName]) w

/-- Function `deleteDump` (main.go 93-107). -/
def deleteDump (env : World) (config : Config) (w : ResponseWriter) (req : Request) : HandlerRun :=
  match getParamValueFromRequestExpectingItToExist "name" req with
  | Except.error err =>
    { effects := [], outcome := Result.ok (handleError w StatusBadRequest err) }
  | Except.ok name =>
    let fileName := getAbsolutePathForDumpName config name
    { effects := [Effect.command "rm" [fileName]]
      outcome :=
        match env.run "rm" [fileName] with
        | some err =>
          let errMsg := "Error while deleting dump '" ++ fileName ++ "' " ++ err
          Result.ok (handleError w StatusInternalServerError errMsg)
        | none => Result.ok w }

/-- Function `downloadDump` (main.go 109-123).  What `http.ServeFile` writes is not
modelled: the call is recorded as an effect. -/
def downloadDump (env : World) (config : Config) (w : ResponseWriter) (req : Request) : HandlerRun :=
  match getParamValueFromRequestExpectingItToExist "name" req with
  | Except.error err =>
    { effects := [], outcome := Result.ok (handleError w StatusBadRequest err) }
  | Except.ok name =>
    let fileName := getAbsolutePathForDumpName config name
    match sliceString fileName (strings.LastIndex fileName "/" + 1) fileName.length with
    | Result.ok fileNameWithoutPath =>
      let w1 := w.SetHeader "Content-Disposition"
        ("attachment; filename=" ++ env.quote fileNameWithoutPath)
      let w2 := w1.SetHeader "Content-Type" "application/octet-stream"
      { effects := [Effect.serveFile fileName], outcome := Result.ok w2 }
    | Result.fatal msg => { effects := [], outcome := Result.fatal msg }
    | Result.panic msg => { effects := [], outcome := Result.panic msg }
    | Result.unsupported => { effects := [], outcome := Result.unsupported }

/-- The loop of `getFileInfoOfExistingDumps` (main.go 152-157). -/
def getFileInfoOfExistingDumps.loop (filenamePattern : String) :
    List FileInfo → Result (List FileInfo)
  | [] => Result.ok []
  | file :: rest =>
    match regexp.MatchString filenamePattern file.Name with
    | none => Result.unsupported
    | some matched =>
      match getFileInfoOfExistingDumps.loop filenamePattern rest with
      | Result.ok fileInfos =>
        Result.ok (if matched ∧ ¬ file.IsDir then file :: fileInfos else fileInfos)
      | other => other

/-- Function `getFileInfoOfExistingDumps` (main.go 145-159): the pair of the source is an
`Except`. -/
def getFileInfoOfExistingDumps (env : World) (config : Config) :
    Result (Except String (List FileInfo)) :=
  match env.readDir config.dir with
  | Except.error err => Result.ok (Except.error err)
  | Except.ok files =>
    let filenamePattern := "^.*\\." ++ config.dumpfileExt ++ "$"
    match getFileInfoOfExistingDumps.loop filenamePattern files with
    | Result.ok fileInfos => Result.ok (Except.ok fileInfos)
    | Result.fatal msg => Result.fatal msg
    | Result.panic msg => Result.panic msg
    | Result.unsupported => Result.unsupported

/-- The logical name `listDumps` shows for a file (main.go 48-50). -/
def listDumps.dumpName (config : Config) (fileName : String) : Result String :=
  let extIdx := strings.LastIndex fileName ("." ++ config.dumpfileExt)
  sliceString fileName 0 extIdx

/-- The loop of `listDumps` (main.go 47-52). -/
def listDumps.loop (config : Config) : List FileInfo → ResponseWriter → Result ResponseWriter
  | [], w => Result.ok w
  | fileInfo :: rest, w =>
    match listDumps.dumpName config fileInfo.Name with
    | Result.ok dumpName =>
      listDumps.loop config rest
        (w.Write (dumpName ++ " (" ++ config.dir ++ fileInfo.Name ++ " @ " ++ fileInfo.ModTime
          ++ ")\n"))
    | Result.fatal msg => Result.fatal msg
    | Result.panic msg => Result.panic msg
    | Result.unsupported => Result.unsupported

/-- Function `listDumps` (main.go 40-53). -/
def listDumps (env : World) (config : Config) (w : ResponseWriter) (_req : Request) : HandlerRun :=
  { effects := [Effect.readDir config.dir]
    outcome :=
      match getFileInfoOfExistingDumps env config with
      | Result.ok (Except.error err) =>
        let errMsg := "Error while listing dump files " ++ err
        Result.ok (handleError w StatusInternalServerError errMsg)
      | Result.ok (Except.ok fileInfos) => listDumps.loop config fileInfos w
      | Result.fatal msg => Result.fatal msg
      | Result.panic msg => Result.panic msg
      | Result.unsupported => Result.unsupported }

/-! ## Notions of the specification -/

/-- The first line of a text. -/
def firstLine (body : String) : String :=
  ⟨body.data.takeWhile (fun c => c ≠ '\n')⟩

/-- What follows the first line and its line feed. -/
def afterFirstLine (body : String) : String :=
  ⟨(body.data.dropWhile (fun c => c ≠ '\n')).drop 1⟩

/-- The text `part` occurs in `text`. -/
def containsText (text part : String) : Prop :=
  part.data <:+: text.data

/-- The text ends with `suffix`. -/
def endsWith (text ending : String) : Prop :=
  ending.data <:+ text.data

/-- The text has no line feed. -/
def noLineFeed (text : String) : Prop :=
  '\n' ∉ text.data

instance (text part : String) : Decidable (containsText text part) :=
  inferInstanceAs (Decidable (part.data <:+: text.data))

instance (text ending : String) : Decidable (endsWith text ending) :=
  inferInstanceAs (Decidable (ending.data <:+ text.data))

instance (text : String) : Decidable (noLineFeed text) :=
  inferInstanceAs (Decidable ('\n' ∉ text.data))

/-- The function ended in `log.Fatal`. -/
def Result.isFatal {α : Type} : Result α → Bool
  | Result.fatal _ => true
  | _ => false

/-- The format a dump argument names: the text after `--format=` when the
argument starts so and that text has no line feed. -/
def formatOf (dumpArg : String) : Option String :=
  if "--format=".data <+: dumpArg.data ∧ '\n' ∉ dumpArg.data.drop 9 then
    some ⟨dumpArg.data.drop 9⟩
  else none

/-! ## Concrete inputs -/

/-- The configuration `readConfig` builds when only `DIR=/dumps/` is set. -/
def exampleConfig : Config :=
  { host := "", port := "8090", dir := "/dumps/", dumpfileExt := "dump.sql"
    dumpArgs := ["--clean", "--format=plain"], restoreArgs := [""] }

/-- The environment in which only `DIR=/dumps/` is set. -/
def exampleEnv (name : String) : String :=
  if name = "DIR" then "/dumps/" else ""

/-- A world in which every subprocess exits with status 0 after writing
nothing, and every directory holds `files`. -/
def quietWorld (files : List FileInfo) : World :=
  { start := fun _ _ => ExecResult.exited "" none
    run := fun _ _ => none
    readDir := fun _ => Except.ok files
    quote := fun s => "\"" ++ s ++ "\"" }

/-- A world in which no executable is found. -/
def noExecutableWorld : World :=
  { start := fun name _ =>
      ExecResult.startError ("exec: \"" ++ name ++ "\": executable file not found in $PATH")
    run := fun name _ => some ("exec: \"" ++ name ++ "\": executable file not found in $PATH")
    readDir := fun _ => Except.ok []
    quote := fun s => "\"" ++ s ++ "\"" }

/-- A world in which every subprocess writes a diagnostic and exits with
status 1. -/
def failingWorld : World :=
  { start := fun _ _ =>
      ExecResult.exited "pg_dump: error: connection to server failed" (some "exit status 1")
    run := fun _ _ => some "exit status 1"
    readDir := fun _ => Except.error "open /dumps/: no such file or directory"
    quote := fun s => "\"" ++ s ++ "\"" }

/-- An environment whose argument variables hold two spaces in a row and a
tab. -/
def spacedEnv (name : String) : String :=
  if name = "PG_DUMP_DATA_ARGS" then "--clean  --format=plain"
  else if name = "PG_RESTORE_ARGS" then "--verbose\t--clean"
  else ""

/-- The handlers that require the query parameter `name`. -/
def nameHandlers : List (World → Config → ResponseWriter → Request → HandlerRun) :=
  [createDump, restoreDump, deleteDump, downloadDump]

/-- A directory with two dumps, an unrelated file, a file the pattern takes for
a dump, a dump whose name has a line feed, and a directory named like a dump. -/
def exampleFiles : List FileInfo :=
  [ ⟨"a.dump.sql", false, "2021-03-01 10:00:00 +0000 UTC"⟩,
    ⟨"c.txt", false, "2021-03-01 10:00:01 +0000 UTC"⟩,
    ⟨"b.dump.sql", false, "2021-03-01 10:00:02 +0000 UTC"⟩,
    ⟨"a.dumpXsql", false, "2021-03-01 10:00:03 +0000 UTC"⟩,
    ⟨"x\ny.dump.sql", false, "2021-03-01 10:00:04 +0000 UTC"⟩,
    ⟨"d.dump.sql", true, "2021-03-01 10:00:05 +0000 UTC"⟩ ]

/-! ## The regular expressions of the program -/

namespace regexp

theorem matchStar_end (t : List Char) :
    matchStar (matchHere []) t = if '\n' ∈ t then none else some (t, []) := by
  induction t with
  | nil => simp [matchStar, matchHere]
  | cons x s ih =>
    have hk : matchHere [] (x :: s) = none := by simp [matchHere]
    by_cases hx : x = '\n'
    · subst hx
      simp [matchStar, hk]
    · have hx2 : ¬ '\n' = x := fun h => hx h.symm
      simp only [matchStar, hx, if_false, ih, hk]
      by_cases hs : '\n' ∈ s
      · simp [hs]
      · simp [hs, hx2]

theorem matchHere_lits (l : List Char) (r : List Node) (s : List Char) :
    matchHere (l.map Node.lit ++ r) s = if l <+: s then matchHere r (s.drop l.length) else none := by
  induction l generalizing s with
  | nil => simp
  | cons c l ih =>
    cases s with
    | nil => simp [matchHere]
    | cons x t =>
      by_cases hx : x = c
      · subst hx
        simp [matchHere, ih, List.cons_prefix_cons]
      · have hx2 : ¬ c = x := fun h => hx h.symm
        simp [matchHere, hx, hx2, List.cons_prefix_cons]

theorem matchHere_capDotStar_end (t : List Char) :
    matchHere [Node.capDotStar] t = if '\n' ∈ t then none else some [t] := by
  rw [matchHere, matchStar_end]
  by_cases h : '\n' ∈ t
  · rw [if_pos h, if_pos h]; rfl
  · rw [if_neg h, if_neg h]; rfl

/-- The loop of `.*` succeeds exactly when the text splits into a part without
line feed and a rest the continuation accepts. -/
theorem matchStar_isSome {α : Type} (k : List Char → Option α) (s : List Char) :
    (matchStar k s).isSome = true ↔
      ∃ p q, s = p ++ q ∧ '\n' ∉ p ∧ (k q).isSome = true := by
  induction s with
  | nil =>
    constructor
    · intro h
      refine ⟨[], [], rfl, by simp, ?_⟩
      simpa [matchStar] using h
    · rintro ⟨p, q, hpq, -, hk⟩
      have hq : q = [] := (List.append_eq_nil.mp hpq.symm).2
      subst hq
      simpa [matchStar] using hk
  | cons x s ih =>
    by_cases hx : x = '\n'
    · subst hx
      constructor
      · intro h
        refine ⟨[], '\n' :: s, rfl, by simp, ?_⟩
        simpa [matchStar] using h
      · rintro ⟨p, q, hpq, hp, hk⟩
        cases p with
        | nil =>
          have hq : q = '\n' :: s := by simpa using hpq.symm
          subst hq
          simpa [matchStar] using hk
        | cons y p =>
          have hy : y = '\n' := by
            have := List.head_eq_of_cons_eq hpq
            exact this.symm
          exact absurd (by simp [hy]) hp
    · cases hm : matchStar k s with
      | some pa =>
        have hsome : (matchStar k s).isSome = true := by rw [hm]; rfl
        obtain ⟨p, q, hpq, hp, hk⟩ := ih.mp hsome
        constructor
        · intro _
          refine ⟨x :: p, q, by rw [hpq]; rfl, ?_, hk⟩
          intro hmem
          rcases List.mem_cons.mp hmem with h | h
          · exact hx h.symm
          · exact hp h
        · intro _
          obtain ⟨p1, a1⟩ := pa
          simp [matchStar, hx, hm]
      | none =>
        have hnone : ¬ (matchStar k s).isSome = true := by rw [hm]; simp
        constructor
        · intro h
          refine ⟨[], x :: s, rfl, by simp, ?_⟩
          simpa [matchStar, hx, hm] using h
        · rintro ⟨p, q, hpq, hp, hk⟩
          cases p with
          | nil =>
            have hq : q = x :: s := by simpa using hpq.symm
            subst hq
            simpa [matchStar, hx, hm] using hk
          | cons y p =>
            have hs : s = p ++ q := List.tail_eq_of_cons_eq hpq
            exact absurd (ih.mpr ⟨p, q, hs, fun h => hp (List.mem_cons_of_mem _ h), hk⟩) hnone

/-- A body `.*` followed by literal text matches exactly the texts that end
with the literal text and have no line feed before it. -/
theorem matchHere_dotStar_lits (l s : List Char) :
    (matchHere (Node.dotStar :: l.map Node.lit) s).isSome = true ↔
      ∃ p, s = p ++ l ∧ '\n' ∉ p := by
  have hk : ∀ q, (matchHere (l.map Node.lit) q).isSome = true ↔ q = l := by
    intro q
    have h := matchHere_lits l [] q
    rw [List.append_nil] at h
    rw [h]
    constructor
    · intro hq
      by_cases hp : l <+: q
      · rw [if_pos hp] at hq
        obtain ⟨r, hr⟩ := hp
        subst hr
        have hr0 : r = [] := by
          by_contra hne
          simp [matchHere, hne] at hq
        simp [hr0]
      · rw [if_neg hp] at hq
        cases hq
    · rintro rfl
      simp [matchHere]
  rw [matchHere, Option.isSome_map', matchStar_isSome]
  constructor
  · rintro ⟨p, q, hs, hp, hq⟩
    exact ⟨p, by rw [hs, (hk q).mp hq], hp⟩
  · rintro ⟨p, hs, hp⟩
    exact ⟨p, l, hs, hp, (hk l).mpr rfl⟩

end regexp

/-! ## `determineDumpFileExtension` -/

/-- The nodes of the pattern `^--format=(.*)$`. -/
theorem compile_format :
    regexp.Compile "^--format=(.*)$"
      = some ⟨"--format=".data.map regexp.Node.lit ++ [regexp.Node.capDotStar]⟩ := by
  decide

theorem matchHere_format (s : List Char) :
    regexp.matchHere ("--format=".data.map regexp.Node.lit ++ [regexp.Node.capDotStar]) s
      = if "--format=".data <+: s ∧ '\n' ∉ s.drop 9 then some [s.drop 9] else none := by
  rw [regexp.matchHere_lits]
  have hlen : "--format=".data.length = 9 := by decide
  rw [hlen, regexp.matchHere_capDotStar_end]
  by_cases hp : "--format=".data <+: s
  · by_cases hn : '\n' ∈ s.drop 9
    · rw [if_pos hp, if_pos hn, if_neg (fun h => h.2 hn)]
    · rw [if_pos hp, if_neg hn, if_pos ⟨hp, hn⟩]
  · rw [if_neg hp, if_neg (fun h => hp h.1)]

theorem format_MatchString (t : String) :
    regexp.Regexp.MatchString ⟨"--format=".data.map regexp.Node.lit ++ [regexp.Node.capDotStar]⟩ t
      = (formatOf t).isSome := by
  unfold regexp.Regexp.MatchString formatOf
  rw [matchHere_format]
  by_cases hc : "--format=".data <+: t.data ∧ '\n' ∉ t.data.drop 9
  · rw [if_pos hc, if_pos hc]; rfl
  · rw [if_neg hc, if_neg hc]; rfl

theorem format_FindStringSubmatch (t : String) :
    (regexp.Regexp.FindStringSubmatch
      ⟨"--format=".data.map regexp.Node.lit ++ [regexp.Node.capDotStar]⟩ t).get? 1
      = formatOf t := by
  unfold regexp.Regexp.FindStringSubmatch formatOf
  rw [matchHere_format]
  by_cases hc : "--format=".data <+: t.data ∧ '\n' ∉ t.data.drop 9
  · rw [if_pos hc, if_pos hc]; rfl
  · rw [if_neg hc, if_neg hc]; rfl

/-- The loop returns the format of the first argument that names one, and the
empty string when there is none. -/
theorem scan_eq (dumpArgs : List String) :
    determineDumpFileExtension.scan
      ⟨"--format=".data.map regexp.Node.lit ++ [regexp.Node.capDotStar]⟩ dumpArgs
      = Result.ok ((dumpArgs.findSome? formatOf).getD "") := by
  induction dumpArgs with
  | nil => simp [determineDumpFileExtension.scan]
  | cons a rest ih =>
    rw [determineDumpFileExtension.scan, format_MatchString, format_FindStringSubmatch, ih]
    cases h : formatOf a <;> simp [List.findSome?, h]

/-- The function as a case distinction on the first named format. -/
theorem determineDumpFileExtension_eq (dumpArgs : List String) :
    determineDumpFileExtension dumpArgs =
      (let format := (dumpArgs.findSome? formatOf).getD ""
       if format = "plain" then Result.ok "dump.sql"
       else if format = "custom" then Result.ok "dump.custom"
       else if format = "tar" then Result.ok "dump.tar"
       else Result.fatal noFormatMsg) := by
  unfold determineDumpFileExtension
  rw [compile_format]
  show (match determineDumpFileExtension.scan _ dumpArgs with
    | Result.ok format => _
    | Result.fatal msg => Result.fatal msg
    | Result.panic msg => Result.panic msg
    | Result.unsupported => Result.unsupported) = _
  rw [scan_eq]

/-- The meaning of `formatOf`. -/
theorem formatOf_eq_some_iff (t f : String) :
    formatOf t = some f ↔ t = "--format=" ++ f ∧ noLineFeed f := by
  unfold formatOf noLineFeed
  constructor
  · intro h
    split at h
    · rename_i hc
      obtain ⟨⟨r, hr⟩, hn⟩ := hc
      have hf : f = ⟨t.data.drop 9⟩ := by simpa using h.symm
      subst hf
      refine ⟨?_, hn⟩
      apply String.ext
      rw [String.data_append, ← hr]
      simp
    · simp at h
  · rintro ⟨rfl, hn⟩
    have hd : ("--format=" ++ f).data = "--format=".data ++ f.data := String.data_append _ _
    have h9 : ("--format=".data ++ f.data).drop 9 = f.data := by
      rw [List.drop_append_of_le_length (by decide)]
      simp
    rw [hd, h9]
    simp [hn]

/-- C1 (as stated, refuted): the argument vector `--format=tar --format=custom`
contains the token `--format=custom`, and the derived extension is `dump.tar`,
not `dump.custom`: the loop stops at the first token that names a format. -/
theorem determineDumpFileExtension_contains_counterexample :
    "--format=custom" ∈ ["--format=tar", "--format=custom"] ∧
    determineDumpFileExtension ["--format=tar", "--format=custom"] = Result.ok "dump.tar" ∧
    determineDumpFileExtension ["--format=tar", "--format=custom"] ≠ Result.ok "dump.custom" := by
  decide

/-- C1 (amended): when the first token of the dump arguments that names a
format (starts with `--format=` and goes on without a line feed) is
`--format=custom`, the derived extension is exactly `dump.custom`; when it is
`--format=plain`, exactly `dump.sql`; when it is `--format=tar`, exactly
`dump.tar`. -/
theorem determineDumpFileExtension_first_format (pre post : List String)
    (hpre : ∀ u ∈ pre, formatOf u = none) :
    determineDumpFileExtension (pre ++ "--format=custom" :: post) = Result.ok "dump.custom" ∧
    determineDumpFileExtension (pre ++ "--format=plain" :: post) = Result.ok "dump.sql" ∧
    determineDumpFileExtension (pre ++ "--format=tar" :: post) = Result.ok "dump.tar" := by
  have hnone : pre.findSome? formatOf = none := List.findSome?_eq_none_iff.mpr hpre
  have hfind : ∀ (t f : String), formatOf t = some f →
      ((pre ++ t :: post).findSome? formatOf).getD "" = f := by
    intro t f ht
    rw [List.findSome?_append, hnone, List.findSome?_cons, ht]
    rfl
  refine ⟨?_, ?_, ?_⟩
  · rw [determineDumpFileExtension_eq, hfind _ "custom" (by decide)]
    decide
  · rw [determineDumpFileExtension_eq, hfind _ "plain" (by decide)]
    decide
  · rw [determineDumpFileExtension_eq, hfind _ "tar" (by decide)]
    decide

/-- C1 (amended), at the default arguments followed by further tokens. -/
theorem determineDumpFileExtension_first_format_witness :
    (∀ u ∈ ["--clean"], formatOf u = none) ∧
    determineDumpFileExtension (["--clean"] ++ "--format=custom" :: ["--format=tar"])
      = Result.ok "dump.custom" :=
  ⟨by decide,
   (determineDumpFileExtension_first_format ["--clean"] ["--format=tar"] (by decide)).1⟩

/-- C2 (as stated, refuted): in `--format=<LF> --format=plain` the first token
of the form `--format=<fmt>` has a `<fmt>` (a line feed) that is none of
`plain`, `custom`, `tar`, yet the function does not fail: the pattern
`^--format=(.*)$` does not match a token with a line feed, the loop goes on to
`--format=plain` and returns `dump.sql`. -/
theorem determineDumpFileExtension_fatal_counterexample :
    determineDumpFileExtension ["--format=\n", "--format=plain"] = Result.ok "dump.sql" ∧
    (determineDumpFileExtension ["--format=\n", "--format=plain"]).isFatal = false ∧
    ∃ pre t post f, ["--format=\n", "--format=plain"] = pre ++ t :: post ∧
      (∀ u ∈ pre, ∀ g : String, u ≠ "--format=" ++ g) ∧ t = "--format=" ++ f ∧
      f ≠ "plain" ∧ f ≠ "custom" ∧ f ≠ "tar" := by
  refine ⟨by decide, by decide, [], "--format=\n", ["--format=plain"], "\n", ?_⟩
  refine ⟨rfl, ?_, by decide, by decide, by decide, by decide⟩
  intro u hu
  cases hu

/-- C2 (amended): the function ends in the fatal configuration error exactly
when no token of the dump arguments names a format (starts with `--format=` and
goes on without a line feed), or the format of the first token that names one is
none of `plain`, `custom`, `tar`; otherwise it returns one of `dump.sql`,
`dump.custom`, `dump.tar`. -/
theorem determineDumpFileExtension_fatal_iff (dumpArgs : List String) :
    ((determineDumpFileExtension dumpArgs).isFatal = true ↔
      ((∀ t ∈ dumpArgs, formatOf t = none) ∨
        ∃ pre t post f, dumpArgs = pre ++ t :: post ∧ (∀ u ∈ pre, formatOf u = none) ∧
          formatOf t = some f ∧ f ≠ "plain" ∧ f ≠ "custom" ∧ f ≠ "tar")) ∧
    ((determineDumpFileExtension dumpArgs).isFatal = false →
      determineDumpFileExtension dumpArgs = Result.ok "dump.sql" ∨
      determineDumpFileExtension dumpArgs = Result.ok "dump.custom" ∨
      determineDumpFileExtension dumpArgs = Result.ok "dump.tar") := by
  rw [determineDumpFileExtension_eq]
  cases hfind : dumpArgs.findSome? formatOf with
  | none =>
    have hall := List.findSome?_eq_none_iff.mp hfind
    refine ⟨⟨fun _ => Or.inl hall, fun _ => by decide⟩, fun h => ?_⟩
    exact absurd h (by decide)
  | some f =>
    obtain ⟨pre, t, post, hsplit, ht, hpre⟩ := List.findSome?_eq_some_iff.mp hfind
    have hnot : ¬ ∀ t ∈ dumpArgs, formatOf t = none := by
      intro hall
      rw [List.findSome?_eq_none_iff.mpr hall] at hfind
      cases hfind
    simp only [Option.getD_some]
    by_cases h1 : f = "plain"
    · subst h1
      refine ⟨⟨fun h => absurd h (by decide), ?_⟩, fun _ => Or.inl rfl⟩
      rintro (hall | ⟨pre2, t2, post2, f2, hs2, hp2, ht2, hf2, -, -⟩)
      · exact absurd hall hnot
      · have : dumpArgs.findSome? formatOf = some f2 :=
          List.findSome?_eq_some_iff.mpr ⟨pre2, t2, post2, hs2, ht2, hp2⟩
        rw [hfind] at this
        exact absurd (Option.some.inj this).symm hf2
    · by_cases h2 : f = "custom"
      · subst h2
        refine ⟨⟨fun h => absurd h (by decide), ?_⟩, fun _ => Or.inr (Or.inl rfl)⟩
        rintro (hall | ⟨pre2, t2, post2, f2, hs2, hp2, ht2, -, hf2, -⟩)
        · exact absurd hall hnot
        · have : dumpArgs.findSome? formatOf = some f2 :=
            List.findSome?_eq_some_iff.mpr ⟨pre2, t2, post2, hs2, ht2, hp2⟩
          rw [hfind] at this
          exact absurd (Option.some.inj this).symm hf2
      · by_cases h3 : f = "tar"
        · subst h3
          refine ⟨⟨fun h => absurd h (by decide), ?_⟩, fun _ => Or.inr (Or.inr rfl)⟩
          rintro (hall | ⟨pre2, t2, post2, f2, hs2, hp2, ht2, -, -, hf2⟩)
          · exact absurd hall hnot
          · have : dumpArgs.findSome? formatOf = some f2 :=
              List.findSome?_eq_some_iff.mpr ⟨pre2, t2, post2, hs2, ht2, hp2⟩
            rw [hfind] at this
            exact absurd (Option.some.inj this).symm hf2
        · have hval : (if f = "plain" then Result.ok "dump.sql"
              else if f = "custom" then Result.ok "dump.custom"
              else if f = "tar" then Result.ok "dump.tar"
              else Result.fatal noFormatMsg : Result String) = Result.fatal noFormatMsg := by
            rw [if_neg h1, if_neg h2, if_neg h3]
          refine ⟨⟨fun _ => Or.inr ⟨pre, t, post, f, hsplit, hpre, ht, h1, h2, h3⟩, fun _ => ?_⟩,
            fun h => ?_⟩
          · rw [hval]; rfl
          · rw [hval] at h
            cases h

/-- C2 (amended), at the default dump arguments. -/
theorem determineDumpFileExtension_fatal_iff_witness :
    (determineDumpFileExtension ["--clean", "--format=plain"]).isFatal = false ∧
    (determineDumpFileExtension ["--clean", "--format=plain"] = Result.ok "dump.sql" ∨
      determineDumpFileExtension ["--clean", "--format=plain"] = Result.ok "dump.custom" ∨
      determineDumpFileExtension ["--clean", "--format=plain"] = Result.ok "dump.tar") :=
  ⟨by decide, (determineDumpFileExtension_fatal_iff ["--clean", "--format=plain"]).2 (by decide)⟩

/-! ## `getAbsolutePathForDumpName` -/

/-- C3: the path of a dump name is `dir ++ name ++ "." ++ dumpfileExt`, and for
a fixed configuration two names with the same path are equal. -/
theorem getAbsolutePathForDumpName_injective (config : Config) :
    (∀ name, getAbsolutePathForDumpName config name
      = config.dir ++ name ++ "." ++ config.dumpfileExt) ∧
    (∀ n1 n2, getAbsolutePathForDumpName config n1 = getAbsolutePathForDumpName config n2 →
      n1 = n2) := by
  refine ⟨fun _ => rfl, fun n1 n2 h => ?_⟩
  unfold getAbsolutePathForDumpName at h
  have hd := congrArg String.data h
  simp only [String.data_append, List.append_assoc] at hd
  have h2 := List.append_cancel_left hd
  have h3 := List.append_cancel_right h2
  exact String.ext h3

/-- C3, at two different names of one configuration: their paths differ. -/
theorem getAbsolutePathForDumpName_injective_witness :
    getAbsolutePathForDumpName ⟨"", "8090", "/tmp/", "dump.sql", [], []⟩ "a"
      ≠ getAbsolutePathForDumpName ⟨"", "8090", "/tmp/", "dump.sql", [], []⟩ "b" :=
  fun h =>
    absurd
      ((getAbsolutePathForDumpName_injective ⟨"", "8090", "/tmp/", "dump.sql", [], []⟩).2 "a" "b" h)
      (by decide)

/-! ## `restoreDump` -/

/-- The nodes of the pattern `^.*\\.sql$`. -/
theorem compile_sql :
    regexp.Compile "^.*\\.sql$"
      = some ⟨regexp.Node.dotStar :: ".sql".data.map regexp.Node.lit⟩ := by
  decide

/-- The test of `restoreDump` holds exactly for a file name that ends with
`.sql` and has no line feed before that ending. -/
theorem sql_MatchString (fileName : String) :
    ∃ sqlFile, regexp.MatchString "^.*\\.sql$" fileName = some sqlFile ∧
      (sqlFile = true ↔ ∃ p, fileName.data = p ++ ".sql".data ∧ '\n' ∉ p) := by
  refine ⟨_, by rw [regexp.MatchString, compile_sql]; rfl, ?_⟩
  exact regexp.matchHere_dotStar_lits ".sql".data fileName.data

/-- On paths without line feed `restoreDump` dispatches as intended: it runs `psql -f path` when the
path ends with `.sql`, and `pg_restore` with the restore arguments followed by
`-f path` otherwise. -/
theorem restoreDump_dispatch (env : World) (config : Config) (w : ResponseWriter) (req : Request)
    (name : String) (hname : getParamValueFromRequestExpectingItToExist "name" req = Except.ok name)
    (hlf : noLineFeed (getAbsolutePathForDumpName config name)) :
    (endsWith (getAbsolutePathForDumpName config name) ".sql" →
      restoreDump env config w req
        = executeCommand env "psql" ["-f", getAbsolutePathForDumpName config name] w) ∧
    (¬ endsWith (getAbsolutePathForDumpName config name) ".sql" →
      restoreDump env config w req
        = executeCommand env "pg_restore"
            (config.restoreArgs ++ ["-f", getAbsolutePathForDumpName config name]) w) := by
  obtain ⟨sqlFile, hm, hiff⟩ := sql_MatchString (getAbsolutePathForDumpName config name)
  unfold restoreDump
  rw [hname]
  simp only [hm]
  constructor
  · rintro ⟨p, hp⟩
    have hsql : sqlFile = true := by
      refine hiff.mpr ⟨p, hp.symm, ?_⟩
      intro hmem
      apply hlf
      unfold noLineFeed at *
      rw [← hp]
      exact List.mem_append_left _ hmem
    rw [hsql]
    rfl
  · intro hno
    have hsql : sqlFile = false := by
      cases hb : sqlFile with
      | false => rfl
      | true =>
        obtain ⟨p, hp, -⟩ := hiff.mp hb
        exact absurd ⟨p, hp.symm⟩ hno
    rw [hsql]
    rfl

/-- C4, at the request `/restore?name=a%0Ab` (the name is `a`, a line feed,
`b`) under the default format: the path `/dumps/a<LF>b.dump.sql` ends with
`.sql`, and `restoreDump` starts `pg_restore`, not `psql`. -/
theorem restoreDump_line_feed_name :
    endsWith (getAbsolutePathForDumpName exampleConfig "a\nb") ".sql" ∧
    (restoreDump (quietWorld []) exampleConfig ResponseWriter.fresh ⟨[("name", "a\nb")]⟩).effects
      = [Effect.command "pg_restore" ["", "-f", "/dumps/a\nb.dump.sql"]] ∧
    (restoreDump (quietWorld []) exampleConfig ResponseWriter.fresh ⟨[("name", "a\nb")]⟩).effects
      ≠ [Effect.command "psql" ["-f", getAbsolutePathForDumpName exampleConfig "a\nb"]] := by
  refine ⟨⟨"/dumps/a\nb.dump".data, by decide⟩, by decide, by decide⟩

/-! ## `getFileInfoOfExistingDumps` and `listDumps` -/

/-- With a pattern of the fragment, the loop keeps the entries whose name
matches and that are no directory, in the order of the enumeration. -/
theorem getFileInfoOfExistingDumps_loop_eq (filenamePattern : String) (re : regexp.Regexp)
    (hre : regexp.Compile filenamePattern = some re) (files : List FileInfo) :
    getFileInfoOfExistingDumps.loop filenamePattern files
      = Result.ok (files.filter (fun file => re.MatchString file.Name && !file.IsDir)) := by
  induction files with
  | nil => rfl
  | cons file rest ih =>
    rw [getFileInfoOfExistingDumps.loop, regexp.MatchString, hre]
    simp only [Option.map_some', ih]
    cases hm : re.MatchString file.Name <;> cases hd : file.IsDir <;>
      simp [List.filter, hm, hd]

namespace strings

theorem lastIndexFrom_short (substr t : List Char) (i : Nat) (best : Int)
    (h : t.length < substr.length) : lastIndexFrom substr t i best = best := by
  induction t generalizing i best with
  | nil =>
    have hne : substr ≠ [] := by
      intro h0
      rw [h0] at h
      cases h
    simp [lastIndexFrom, hne]
  | cons c t ih =>
    have hnp : substr.isPrefixOf (c :: t) = false := by
      cases hp : substr.isPrefixOf (c :: t) with
      | false => rfl
      | true =>
        have := (List.isPrefixOf_iff_prefix.mp hp).length_le
        omega
    rw [lastIndexFrom, hnp]
    exact ih (i + 1) best (by simp only [List.length_cons] at h; omega)

/-- In a text that ends with `substr`, the last instance of `substr` is that
ending. -/
theorem lastIndexFrom_suffix (substr p : List Char) (i : Nat) (best : Int) :
    lastIndexFrom substr (p ++ substr) i best = (i : Int) + p.length := by
  induction p generalizing i best with
  | nil =>
    cases substr with
    | nil => simp [lastIndexFrom]
    | cons c cs =>
      have hp : (c :: cs).isPrefixOf (c :: cs) = true :=
        List.isPrefixOf_iff_prefix.mpr (List.prefix_refl _)
      rw [List.nil_append, lastIndexFrom, hp, lastIndexFrom_short _ _ _ _ (by simp)]
      simp
  | cons x p ih =>
    rw [List.cons_append, lastIndexFrom, ih]
    simp only [List.length_cons]
    push_cast
    omega

end strings

/-- On a file name made of a dump name and the suffix, the suffix is found,
the slice is in range, and `listDumps` shows exactly the dump name. -/
theorem listDumps_dumpName_suffix (config : Config) (name : String) :
    listDumps.dumpName config (name ++ "." ++ config.dumpfileExt) = Result.ok name := by
  have hd : (name ++ "." ++ config.dumpfileExt).data
      = name.data ++ ("." ++ config.dumpfileExt).data := by
    simp [String.data_append]
  have hidx : strings.LastIndex (name ++ "." ++ config.dumpfileExt) ("." ++ config.dumpfileExt)
      = (name.data.length : Int) := by
    unfold strings.LastIndex
    rw [hd, strings.lastIndexFrom_suffix]
    simp
  unfold listDumps.dumpName
  simp only [hidx]
  unfold sliceString
  have hlen : (name.data.length : Int) ≤ ((name ++ "." ++ config.dumpfileExt).length : Int) := by
    rw [String.length, hd, List.length_append]
    push_cast
    omega
  rw [if_pos ⟨le_refl _, Int.natCast_nonneg _, hlen⟩]
  congr 1
  apply String.ext
  show List.take _ (List.drop _ _) = name.data
  rw [hd]
  simp

/-- On names without line feed, under each of the three extensions, a
regular file whose name is a dump name without line feed followed by the suffix
is kept by `getFileInfoOfExistingDumps`. -/
theorem getFileInfoOfExistingDumps_keeps (env : World) (config : Config)
    (files : List FileInfo) (hdir : env.readDir config.dir = Except.ok files)
    (hext : config.dumpfileExt = "dump.sql" ∨ config.dumpfileExt = "dump.custom" ∨
      config.dumpfileExt = "dump.tar")
    (file : FileInfo) (hfile : file ∈ files) (hreg : file.IsDir = false) (name : String)
    (hname : file.Name = name ++ "." ++ config.dumpfileExt) (hlf : noLineFeed name) :
    ∃ kept, getFileInfoOfExistingDumps env config = Result.ok (Except.ok kept) ∧
      file ∈ kept := by
  have hcompile : ∃ nodes, regexp.Compile ("^.*\\." ++ config.dumpfileExt ++ "$")
        = some ⟨regexp.Node.dotStar :: nodes⟩ ∧
      (regexp.matchHere nodes ("." ++ config.dumpfileExt).data).isSome = true := by
    refine ⟨regexp.Node.lit '.' :: config.dumpfileExt.data.map
      (fun c => if c = '.' then regexp.Node.dot else regexp.Node.lit c), ?_⟩
    rcases hext with h | h | h <;> rw [h] <;> exact ⟨by decide, by decide⟩
  obtain ⟨nodes, hc, hm⟩ := hcompile
  have hmatch : regexp.Regexp.MatchString ⟨regexp.Node.dotStar :: nodes⟩ file.Name = true := by
    unfold regexp.Regexp.MatchString
    rw [regexp.matchHere, Option.isSome_map', regexp.matchStar_isSome]
    refine ⟨name.data, ("." ++ config.dumpfileExt).data, ?_, hlf, hm⟩
    rw [hname]
    simp [String.data_append]
  unfold getFileInfoOfExistingDumps
  rw [hdir]
  simp only [getFileInfoOfExistingDumps_loop_eq _ _ hc]
  refine ⟨_, rfl, ?_⟩
  rw [List.mem_filter]
  exact ⟨hfile, by simp [hmatch, hreg]⟩

/-- C5, at a directory under the default format: `getFileInfoOfExistingDumps`
keeps `a.dumpXsql`, whose name does not end with `.dump.sql` (the `.` of the
extension is not escaped in the pattern), and drops `x<LF>y.dump.sql`, a
regular file whose name ends with `.dump.sql` (`.*` does not match a line
feed). -/
theorem getFileInfoOfExistingDumps_pattern_mismatch :
    getFileInfoOfExistingDumps (quietWorld exampleFiles) exampleConfig
      = Result.ok (Except.ok
          [ ⟨"a.dump.sql", false, "2021-03-01 10:00:00 +0000 UTC"⟩,
            ⟨"b.dump.sql", false, "2021-03-01 10:00:02 +0000 UTC"⟩,
            ⟨"a.dumpXsql", false, "2021-03-01 10:00:03 +0000 UTC"⟩ ]) ∧
    ¬ endsWith "a.dumpXsql" ("." ++ exampleConfig.dumpfileExt) ∧
    endsWith "x\ny.dump.sql" ("." ++ exampleConfig.dumpfileExt) := by
  refine ⟨rfl, ?_, ⟨"x\ny".data, by decide⟩⟩
  unfold endsWith
  decide

/-- C6, at a directory that holds the regular file `a.dumpXsql`, under the
default format: the file passes the filter, `strings.LastIndex` does not find
`.dump.sql` in its name (`extIdx` is `-1`), and the slice `fileName[0:extIdx]`
of `listDumps` panics. -/
theorem listDumps_panics :
    getFileInfoOfExistingDumps (quietWorld [⟨"a.dumpXsql", false, "2021-03-01"⟩]) exampleConfig
      = Result.ok (Except.ok [⟨"a.dumpXsql", false, "2021-03-01"⟩]) ∧
    strings.LastIndex "a.dumpXsql" ("." ++ exampleConfig.dumpfileExt) = -1 ∧
    (listDumps (quietWorld [⟨"a.dumpXsql", false, "2021-03-01"⟩]) exampleConfig
        ResponseWriter.fresh ⟨[]⟩).outcome
      = Result.panic "slice bounds out of range" :=
  ⟨rfl, by decide, by decide⟩

/-! ## Validation of the query parameter `name` -/

theorem length_eq_zero_iff (s : String) : s.length = 0 ↔ s = "" := by
  constructor
  · intro h
    apply String.ext
    exact List.length_eq_zero.mp h
  · rintro rfl
    rfl

theorem getParam_missing (req : Request)
    (h : req.query.lookup "name" = none ∨ req.query.lookup "name" = some "") :
    getParamValueFromRequestExpectingItToExist "name" req
      = Except.error "No value provided for query parameter 'name'" := by
  have hq : req.queryGet "name" = "" := by
    unfold Request.queryGet
    rcases h with h | h <;> rw [h] <;> rfl
  unfold getParamValueFromRequestExpectingItToExist
  simp only [hq]
  rfl

theorem getParam_present (req : Request) (value : String) (hne : value ≠ "")
    (h : req.query.lookup "name" = some value) :
    getParamValueFromRequestExpectingItToExist "name" req = Except.ok value := by
  have hq : req.queryGet "name" = value := by
    unfold Request.queryGet
    rw [h]
    rfl
  have hlen : ¬ value.length = 0 := fun h0 => hne ((length_eq_zero_iff value).mp h0)
  unfold getParamValueFromRequestExpectingItToExist
  simp only [hq, if_neg hlen]

theorem handleError_statusCode (code : Nat) (errMsg : String) :
    (handleError ResponseWriter.fresh code errMsg).statusCode = some code := rfl

theorem handleSuccess_statusCode (msg : String) :
    (handleSuccess ResponseWriter.fresh msg).statusCode = some 200 := by
  unfold handleSuccess
  by_cases h : msg.length = 0 <;> simp [h] <;> rfl

/-- A response of `executeCommand` has status 500 or 200. -/
theorem executeCommand_statusCode (env : World) (command : String) (args : List String)
    (w : ResponseWriter)
    (h : (executeCommand env command args ResponseWriter.fresh).outcome = Result.ok w) :
    w.statusCode = some 500 ∨ w.statusCode = some 200 := by
  unfold executeCommand at h
  cases hs : env.start command args with
  | pipeError err => rw [hs] at h; cases h
  | startError err => rw [hs] at h; cases h
  | exited output waitErr =>
    rw [hs] at h
    cases waitErr with
    | some e =>
      have hw := Result.ok.inj h
      rw [← hw]
      exact Or.inl (handleError_statusCode _ _)
    | none =>
      have hw := Result.ok.inj h
      rw [← hw]
      exact Or.inr (handleSuccess_statusCode _)

/-- C7: for each of `createDump`, `restoreDump`, `deleteDump`, `downloadDump`:
when the query parameter `name` is absent or empty, the handler starts no
subprocess and no file-system operation and answers with status 400 and the body
`ERROR`, line feed, `No value provided for query parameter 'name'`, line feed;
when `name` has a non-empty value, the validation returns that value and the
handler does not answer with status 400. -/
theorem handlers_validate_name (env : World) (config : Config) (req : Request) :
    ((req.query.lookup "name" = none ∨ req.query.lookup "name" = some "") →
      ∀ handler ∈ nameHandlers,
        (handler env config ResponseWriter.fresh req).effects = [] ∧
        ∃ w, (handler env config ResponseWriter.fresh req).outcome = Result.ok w ∧
          w.status = 400 ∧ firstLine w.body = "ERROR" ∧
          w.body = "ERROR\nNo value provided for query parameter 'name'\n") ∧
    (∀ value, value ≠ "" → req.query.lookup "name" = some value →
      getParamValueFromRequestExpectingItToExist "name" req = Except.ok value ∧
      ∀ handler ∈ nameHandlers, ∀ w,
        (handler env config ResponseWriter.fresh req).outcome = Result.ok w →
          w.statusCode ≠ some 400) := by
  constructor
  · intro hmiss handler hmem
    have hp := getParam_missing req hmiss
    have hrun : handler env config ResponseWriter.fresh req
        = { effects := []
            outcome := Result.ok (handleError ResponseWriter.fresh StatusBadRequest
              "No value provided for query parameter 'name'") } := by
      simp only [nameHandlers, List.mem_cons, List.mem_singleton, List.not_mem_nil, or_false]
        at hmem
      rcases hmem with rfl | rfl | rfl | rfl
      · unfold createDump; rw [hp]
      · unfold restoreDump; rw [hp]
      · unfold deleteDump; rw [hp]
      · unfold downloadDump; rw [hp]
    rw [hrun]
    exact ⟨rfl, _, rfl, by decide, by decide, by decide⟩
  · intro value hne hval
    have hp := getParam_present req value hne hval
    refine ⟨hp, ?_⟩
    intro handler hmem w hw
    simp only [nameHandlers, List.mem_cons, List.mem_singleton, List.not_mem_nil, or_false]
      at hmem
    rcases hmem with rfl | rfl | rfl | rfl
    · unfold createDump at hw
      rw [hp] at hw
      rcases executeCommand_statusCode _ _ _ _ hw with h | h <;> rw [h] <;> decide
    · unfold restoreDump at hw
      rw [hp] at hw
      obtain ⟨sqlFile, hm, -⟩ := sql_MatchString (getAbsolutePathForDumpName config value)
      simp only [hm] at hw
      cases sqlFile with
      | true =>
        rcases executeCommand_statusCode _ _ _ _ hw with h | h <;> rw [h] <;> decide
      | false =>
        rcases executeCommand_statusCode _ _ _ _ hw with h | h <;> rw [h] <;> decide
    · unfold deleteDump at hw
      rw [hp] at hw
      simp only at hw
      cases hr : env.run "rm" [getAbsolutePathForDumpName config value] with
      | some err =>
        rw [hr] at hw
        have := Result.ok.inj hw
        rw [← this, handleError_statusCode]
        decide
      | none =>
        rw [hr] at hw
        have := Result.ok.inj hw
        rw [← this]
        intro h
        cases h
    · unfold downloadDump at hw
      rw [hp] at hw
      simp only at hw
      cases hsl : sliceString (getAbsolutePathForDumpName config value)
          (strings.LastIndex (getAbsolutePathForDumpName config value) "/" + 1)
          (getAbsolutePathForDumpName config value).length with
      | ok fileNameWithoutPath =>
        rw [hsl] at hw
        have := Result.ok.inj hw
        rw [← this]
        intro h
        cases h
      | fatal msg => rw [hsl] at hw; cases hw
      | panic msg => rw [hsl] at hw; cases hw
      | unsupported => rw [hsl] at hw; cases hw

/-- C7, at the requests `/dump` and `/dump?name=foo`. -/
theorem handlers_validate_name_witness :
    ((createDump (quietWorld []) exampleConfig ResponseWriter.fresh ⟨[]⟩).effects = [] ∧
      ∃ w, (createDump (quietWorld []) exampleConfig ResponseWriter.fresh ⟨[]⟩).outcome
          = Result.ok w ∧
        w.status = 400 ∧ firstLine w.body = "ERROR" ∧
        w.body = "ERROR\nNo value provided for query parameter 'name'\n") ∧
    getParamValueFromRequestExpectingItToExist "name" ⟨[("name", "foo")]⟩ = Except.ok "foo" :=
  ⟨(handlers_validate_name (quietWorld []) exampleConfig ⟨[]⟩).1 (Or.inl rfl) createDump
      (by simp [nameHandlers]),
   ((handlers_validate_name (quietWorld []) exampleConfig ⟨[("name", "foo")]⟩).2 "foo"
      (by decide) rfl).1⟩

/-! ## `executeCommand` -/

theorem containsText_refl (a : String) : containsText a a := List.infix_refl _

theorem containsText_append_left (a b part : String) (h : containsText a part) :
    containsText (a ++ b) part := by
  unfold containsText at *
  rw [String.data_append]
  exact h.trans (List.infix_append' [] a.data b.data)

theorem containsText_append_right (a b part : String) (h : containsText b part) :
    containsText (a ++ b) part := by
  unfold containsText at *
  rw [String.data_append]
  exact h.trans (List.suffix_append a.data b.data).isInfix

theorem containsText_joinWith (sep : String) (args : List String) (a : String) (h : a ∈ args) :
    containsText (joinWith sep args) a := by
  induction args with
  | nil => cases h
  | cons x rest ih =>
    cases rest with
    | nil =>
      have hx : a = x := by simpa using h
      subst hx
      exact containsText_refl _
    | cons y rest2 =>
      rw [joinWith]
      rcases List.mem_cons.mp h with hx | hx
      · subst hx
        exact containsText_append_left _ _ _ (containsText_append_left _ _ _ (containsText_refl _))
      · exact containsText_append_right _ _ _ (ih hx)

theorem firstLine_marker (marker rest : String) (h : noLineFeed marker) :
    firstLine (marker ++ "\n" ++ rest) = marker ∧
    afterFirstLine (marker ++ "\n" ++ rest) = rest := by
  unfold noLineFeed at h
  have hall : ∀ c ∈ marker.data, (decide (c ≠ '\n')) = true := by
    intro c hc
    simp only [decide_eq_true_eq]
    intro hcn
    exact h (hcn ▸ hc)
  have hd : (marker ++ "\n" ++ rest).data = marker.data ++ '\n' :: rest.data := by
    simp [String.data_append]
  constructor
  · apply String.ext
    unfold firstLine
    rw [hd]
    show List.takeWhile _ _ = marker.data
    rw [List.takeWhile_append_of_pos hall]
    simp
  · apply String.ext
    unfold afterFirstLine
    rw [hd]
    show List.drop 1 (List.dropWhile _ _) = rest.data
    rw [List.dropWhile_append_of_pos hall]
    simp

theorem fresh_append (text : String) : ResponseWriter.fresh.body ++ text = text := by
  apply String.ext
  simp [ResponseWriter.fresh, String.data_append]

theorem handleError_body (code : Nat) (errMsg : String) :
    (handleError ResponseWriter.fresh code errMsg).body = "ERROR" ++ "\n" ++ (errMsg ++ "\n") := by
  apply String.ext
  simp [handleError, ResponseWriter.Write, ResponseWriter.WriteHeader, ResponseWriter.fresh,
    String.data_append]

theorem handleSuccess_body (msg : String) (h : msg.length ≠ 0) :
    (handleSuccess ResponseWriter.fresh msg).body = "SUCCESS" ++ "\n" ++ (msg ++ "\n") := by
  apply String.ext
  simp [handleSuccess, h, ResponseWriter.Write, ResponseWriter.WriteHeader, ResponseWriter.fresh,
    String.data_append]

/-- C8: for a subprocess that `executeCommand` started and that wrote `output`
to standard error: when it ends in failure, the response has status 500, the
first line of the body is `ERROR`, and the text after it contains the program
name, the arguments (as `%s` prints them, hence each argument) and `output`;
when it ends in success, the status is 200, the first line of the body is
`SUCCESS`, and the text after it contains `output`. -/
theorem executeCommand_response (env : World) (command : String) (args : List String)
    (output : String) (waitErr : Option String)
    (hrun : env.start command args = ExecResult.exited output waitErr) :
    (waitErr ≠ none →
      ∃ w, (executeCommand env command args ResponseWriter.fresh).outcome = Result.ok w ∧
        w.status = 500 ∧ firstLine w.body = "ERROR" ∧
        containsText (afterFirstLine w.body) command ∧
        containsText (afterFirstLine w.body) (fmtStrings args) ∧
        (∀ a ∈ args, containsText (afterFirstLine w.body) a) ∧
        containsText (afterFirstLine w.body) output) ∧
    (waitErr = none →
      ∃ w, (executeCommand env command args ResponseWriter.fresh).outcome = Result.ok w ∧
        w.status = 200 ∧ firstLine w.body = "SUCCESS" ∧
        containsText (afterFirstLine w.body) output) := by
  constructor
  · intro hne
    obtain ⟨e, rfl⟩ : ∃ e, waitErr = some e := by
      cases waitErr with
      | none => exact absurd rfl hne
      | some e => exact ⟨e, rfl⟩
    refine ⟨_, by unfold executeCommand; rw [hrun], ?_, ?_⟩
    · show Option.getD (handleError ResponseWriter.fresh StatusInternalServerError _).statusCode 200
        = 500
      rw [handleError_statusCode]
      rfl
    · rw [handleError_body]
      have hfl := firstLine_marker "ERROR"
        ("Error executing " ++ command ++ " with arguments: " ++ fmtStrings args ++ "):\n"
          ++ output ++ "\n") (by decide)
      rw [hfl.1, hfl.2]
      have hargs : containsText
          ("Error executing " ++ command ++ " with arguments: " ++ fmtStrings args ++ "):\n"
            ++ output ++ "\n") (fmtStrings args) :=
        containsText_append_left _ _ _ (containsText_append_left _ _ _
          (containsText_append_left _ _ _ (containsText_append_right _ _ _
            (containsText_refl _))))
      refine ⟨rfl, ?_, hargs, ?_, ?_⟩
      · exact containsText_append_left _ _ _ (containsText_append_left _ _ _
          (containsText_append_left _ _ _ (containsText_append_left _ _ _
            (containsText_append_left _ _ _ (containsText_append_right _ _ _
              (containsText_refl _))))))
      · intro a ha
        have h1 : containsText (fmtStrings args) a := by
          unfold fmtStrings
          exact containsText_append_left _ _ _ (containsText_append_right _ _ _
            (containsText_joinWith " " args a ha))
        exact List.IsInfix.trans h1 hargs
      · exact containsText_append_left _ _ _ (containsText_append_right _ _ _
          (containsText_refl _))
  · rintro rfl
    have hlen : ("Succesfully executed " ++ command ++ " with arguments: " ++ fmtStrings args
        ++ "):\n" ++ output).length ≠ 0 := by
      have h21 : "Succesfully executed ".length = 21 := by decide
      simp only [String.length_append, h21]
      omega
    refine ⟨_, by unfold executeCommand; rw [hrun], ?_, ?_⟩
    · show Option.getD (handleSuccess ResponseWriter.fresh _).statusCode 200 = 200
      rw [handleSuccess_statusCode]
      rfl
    · rw [handleSuccess_body _ hlen]
      have hfl := firstLine_marker "SUCCESS"
        ("Succesfully executed " ++ command ++ " with arguments: " ++ fmtStrings args ++ "):\n"
          ++ output ++ "\n") (by decide)
      rw [hfl.1, hfl.2]
      exact ⟨rfl, containsText_append_left _ _ _ (containsText_append_right _ _ _
        (containsText_refl _))⟩

/-- C8, at a `pg_dump` that fails with a diagnostic. -/
theorem executeCommand_response_witness :
    ∃ w, (executeCommand failingWorld "pg_dump" ["--clean", "-f", "/dumps/a.dump.sql"]
        ResponseWriter.fresh).outcome = Result.ok w ∧
      w.status = 500 ∧ firstLine w.body = "ERROR" ∧
      containsText (afterFirstLine w.body) "pg_dump" ∧
      containsText (afterFirstLine w.body) (fmtStrings ["--clean", "-f", "/dumps/a.dump.sql"]) ∧
      (∀ a ∈ ["--clean", "-f", "/dumps/a.dump.sql"], containsText (afterFirstLine w.body) a) ∧
      containsText (afterFirstLine w.body) "pg_dump: error: connection to server failed" :=
  (executeCommand_response failingWorld "pg_dump" ["--clean", "-f", "/dumps/a.dump.sql"]
    "pg_dump: error: connection to server failed" (some "exit status 1") rfl).1 (by decide)

/-- A launch failure (no standard-error pipe, or no start) ends
`executeCommand` in `log.Fatal` with that error, whatever the response writer. -/
theorem executeCommand_launch_failure (env : World) (command : String) (args : List String)
    (w : ResponseWriter) (err : String)
    (h : env.start command args = ExecResult.pipeError err ∨
      env.start command args = ExecResult.startError err) :
    (executeCommand env command args w).outcome = Result.fatal err := by
  unfold executeCommand
  rcases h with h | h <;> rw [h]

/-- C9, at the request `/dump?name=a` on a host where no executable is found:
`executeCommand` ends in `log.Fatal`, so `createDump` writes no response and the
process exits, where the claim asks for a 500 response with first line `ERROR`
and a process that keeps serving.  On the same host the sibling `deleteDump`
answers the request `/delete?name=a` with status 500 and first line `ERROR`, and
so does `createDump` itself when the subprocess starts and then fails. -/
theorem executeCommand_launch_exits_process :
    (executeCommand noExecutableWorld "pg_dump"
        ["--clean", "--format=plain", "-f", "/dumps/a.dump.sql"] ResponseWriter.fresh).outcome
      = Result.fatal "exec: \"pg_dump\": executable file not found in $PATH" ∧
    (createDump noExecutableWorld exampleConfig ResponseWriter.fresh ⟨[("name", "a")]⟩).outcome
      = Result.fatal "exec: \"pg_dump\": executable file not found in $PATH" ∧
    (¬ ∃ w, (createDump noExecutableWorld exampleConfig ResponseWriter.fresh
        ⟨[("name", "a")]⟩).outcome = Result.ok w) ∧
    (∃ w, (deleteDump noExecutableWorld exampleConfig ResponseWriter.fresh
        ⟨[("name", "a")]⟩).outcome = Result.ok w ∧
      w.status = 500 ∧ firstLine w.body = "ERROR") ∧
    (∃ w, (createDump failingWorld exampleConfig ResponseWriter.fresh
        ⟨[("name", "a")]⟩).outcome = Result.ok w ∧
      w.status = 500 ∧ firstLine w.body = "ERROR") := by
  refine ⟨by decide, by decide, ?_, ⟨_, rfl, by decide, by decide⟩,
    ⟨_, rfl, by decide, by decide⟩⟩
  rintro ⟨w, hw⟩
  have hf : (createDump noExecutableWorld exampleConfig ResponseWriter.fresh
      ⟨[("name", "a")]⟩).outcome
      = Result.fatal "exec: \"pg_dump\": executable file not found in $PATH" := by decide
  rw [hf] at hw
  cases hw

/-! ## `readConfig` -/

namespace strings

theorem splitChars_ne_nil (sep : Char) (s : List Char) : splitChars sep s ≠ [] := by
  cases s with
  | nil => simp [splitChars]
  | cons c cs =>
    by_cases hc : c = sep
    · simp [splitChars, hc]
    · cases h : splitChars sep cs <;> simp [splitChars, hc, h]

/-- No piece of a split holds the separator. -/
theorem splitChars_no_sep (sep : Char) (s : List Char) :
    ∀ t ∈ splitChars sep s, sep ∉ t := by
  induction s with
  | nil => simp [splitChars]
  | cons c cs ih =>
    by_cases hc : c = sep
    · intro t ht
      simp only [splitChars, hc, if_true, List.mem_cons] at ht
      rcases ht with rfl | ht
      · simp
      · exact ih t ht
    · cases h : splitChars sep cs with
      | nil => exact absurd h (splitChars_ne_nil sep cs)
      | cons t0 ts =>
        intro t ht
        simp only [splitChars, hc, if_false, h, List.mem_cons] at ht
        rw [h] at ih
        rcases ht with rfl | ht
        · intro hmem
          rcases List.mem_cons.mp hmem with hx | hx
          · exact hc hx.symm
          · exact ih t0 (List.mem_cons_self _ _) hx
        · exact ih t (List.mem_cons_of_mem _ ht)

end strings

theorem joinWith_cons_char (sep : String) (c : Char) (t : List Char) (ts : List String) :
    joinWith sep (String.mk (c :: t) :: ts) = ⟨c :: (joinWith sep (String.mk t :: ts)).data⟩ := by
  cases ts with
  | nil => rfl
  | cons y rest =>
    apply String.ext
    simp [joinWith, String.data_append]

/-- Joining the pieces of a split with the separator gives the text back. -/
theorem joinWith_splitChars (sep : Char) (s : List Char) :
    joinWith ⟨[sep]⟩ ((strings.splitChars sep s).map String.mk) = ⟨s⟩ := by
  induction s with
  | nil => rfl
  | cons c cs ih =>
    by_cases hc : c = sep
    · subst hc
      cases h : strings.splitChars c cs with
      | nil => exact absurd h (strings.splitChars_ne_nil c cs)
      | cons t0 ts =>
        rw [h] at ih
        simp only [strings.splitChars, if_true, h, List.map_cons] at ih ⊢
        rw [joinWith, ih]
        apply String.ext
        simp [String.data_append]
    · cases h : strings.splitChars sep cs with
      | nil => exact absurd h (strings.splitChars_ne_nil sep cs)
      | cons t0 ts =>
        rw [h] at ih
        simp only [strings.splitChars, hc, if_false, h, List.map_cons] at ih ⊢
        rw [joinWith_cons_char, ih]

theorem Split_no_space (value : String) : ∀ t ∈ strings.Split value ' ', ' ' ∉ t.data := by
  intro t ht
  unfold strings.Split at ht
  obtain ⟨cs, hcs, rfl⟩ := List.mem_map.mp ht
  exact strings.splitChars_no_sep ' ' value.data cs hcs

theorem joinWith_Split (value : String) : joinWith " " (strings.Split value ' ') = value :=
  joinWith_splitChars ' ' value.data

/-- The configuration of `exampleEnv`; its restore arguments are one empty
token. -/
theorem readConfig_exampleEnv : readConfig exampleEnv "/tmp" = Result.ok exampleConfig := by
  decide

/-- C10 (as stated, refuted): with two spaces in a row in `PG_DUMP_DATA_ARGS`
and a tab in `PG_RESTORE_ARGS`, `readConfig` returns dump arguments with an
empty token and restore arguments with a token that holds whitespace: the
values are split at every single space, not at runs of whitespace. -/
theorem readConfig_split_counterexample :
    readConfig spacedEnv "/tmp"
      = Result.ok
          { host := "", port := "8090", dir := "/tmp", dumpfileExt := "dump.sql"
            dumpArgs := ["--clean", "", "--format=plain"]
            restoreArgs := ["--verbose\t--clean"] } ∧
    "" ∈ ["--clean", "", "--format=plain"] ∧
    '\t' ∈ "--verbose\t--clean".data := by
  decide

/-- The value `getEnvVariableOrDefault` returns, in terms of the environment. -/
theorem getEnvVariableOrDefault_eq (getenv : String → String) (name defaultVal : String) :
    getEnvVariableOrDefault getenv name defaultVal
      = if getenv name = "" then defaultVal else getenv name := by
  unfold getEnvVariableOrDefault
  by_cases h : getenv name = ""
  · have hl : (getenv name).length = 0 := (length_eq_zero_iff _).mpr h
    rw [if_pos h]
    show (if (getenv name).length = 0 then defaultVal else getenv name) = defaultVal
    rw [if_pos hl]
  · have hl : ¬ (getenv name).length = 0 := fun h0 => h ((length_eq_zero_iff _).mp h0)
    rw [if_neg h]
    show (if (getenv name).length = 0 then defaultVal else getenv name) = getenv name
    rw [if_neg hl]

/-- C10 (amended): the argument vectors of `readConfig` are the raw values of
the environment split at every single space: no token of `dumpArgs` or
`restoreArgs` holds a space; the tokens of `restoreArgs` joined with single
spaces give the value of `PG_RESTORE_ARGS` back (the empty text when it is
unset); the tokens of `dumpArgs` joined with single spaces give the value of
`PG_DUMP_DATA_ARGS` back when it is set; when `PG_DUMP_DATA_ARGS` is unset or
empty, `readConfig` returns a configuration whose `dumpArgs` is exactly
`--clean`, `--format=plain`.  `readConfig` returns a configuration unless it
ends in the fatal configuration error. -/
theorem readConfig_args (getenv : String → String) (tempDir : String) :
    (∀ config, readConfig getenv tempDir = Result.ok config →
      (∀ t ∈ config.dumpArgs, ' ' ∉ t.data) ∧
      (∀ t ∈ config.restoreArgs, ' ' ∉ t.data) ∧
      (getenv "PG_DUMP_DATA_ARGS" ≠ "" →
        joinWith " " config.dumpArgs = getenv "PG_DUMP_DATA_ARGS") ∧
      (getenv "PG_DUMP_DATA_ARGS" = "" → config.dumpArgs = ["--clean", "--format=plain"]) ∧
      joinWith " " config.restoreArgs = getenv "PG_RESTORE_ARGS") ∧
    (getenv "PG_DUMP_DATA_ARGS" = "" →
      ∃ config, readConfig getenv tempDir = Result.ok config ∧
        config.dumpArgs = ["--clean", "--format=plain"]) ∧
    ((readConfig getenv tempDir).isFatal = false →
      ∃ config, readConfig getenv tempDir = Result.ok config) := by
  have hs : strings.Split "--clean --format=plain" ' ' = ["--clean", "--format=plain"] := by
    decide
  have hr : getEnvVariableOrDefault getenv "PG_RESTORE_ARGS" "" = getenv "PG_RESTORE_ARGS" := by
    rw [getEnvVariableOrDefault_eq]
    by_cases h : getenv "PG_RESTORE_ARGS" = ""
    · rw [if_pos h, h]
    · rw [if_neg h]
  refine ⟨?_, ?_, ?_⟩
  · intro config h
    unfold readConfig at h
    simp only at h
    cases hd : determineDumpFileExtension (strings.Split
        (getEnvVariableOrDefault getenv "PG_DUMP_DATA_ARGS" "--clean --format=plain") ' ') with
    | ok ext =>
      rw [hd] at h
      have hc := Result.ok.inj h
      subst hc
      refine ⟨Split_no_space _, Split_no_space _, ?_, ?_, ?_⟩
      · intro hset
        show joinWith " " (strings.Split _ ' ') = _
        rw [joinWith_Split, getEnvVariableOrDefault_eq, if_neg hset]
      · intro hunset
        show strings.Split _ ' ' = _
        rw [getEnvVariableOrDefault_eq, if_pos hunset, hs]
      · show joinWith " " (strings.Split _ ' ') = _
        rw [joinWith_Split, hr]
    | fatal msg => rw [hd] at h; cases h
    | panic msg => rw [hd] at h; cases h
    | unsupported => rw [hd] at h; cases h
  · intro hunset
    have hv : getEnvVariableOrDefault getenv "PG_DUMP_DATA_ARGS" "--clean --format=plain"
        = "--clean --format=plain" := by
      rw [getEnvVariableOrDefault_eq, if_pos hunset]
    have he : determineDumpFileExtension ["--clean", "--format=plain"] = Result.ok "dump.sql" := by
      decide
    unfold readConfig
    simp only [hv, hs, he]
    exact ⟨_, rfl, rfl⟩
  · intro hnf
    unfold readConfig at hnf ⊢
    simp only at hnf ⊢
    have hdet := determineDumpFileExtension_eq (strings.Split
        (getEnvVariableOrDefault getenv "PG_DUMP_DATA_ARGS" "--clean --format=plain") ' ')
    cases hd : determineDumpFileExtension (strings.Split
        (getEnvVariableOrDefault getenv "PG_DUMP_DATA_ARGS" "--clean --format=plain") ' ') with
    | ok ext => exact ⟨_, rfl⟩
    | fatal msg => rw [hd] at hnf; cases hnf
    | panic msg =>
      rw [hd] at hdet
      simp only at hdet
      split at hdet
      · cases hdet
      · split at hdet
        · cases hdet
        · split at hdet <;> cases hdet
    | unsupported =>
      rw [hd] at hdet
      simp only at hdet
      split at hdet
      · cases hdet
      · split at hdet
        · cases hdet
        · split at hdet <;> cases hdet

/-- C10 (amended), at an environment whose two argument variables are set, and
at the environment in which only `DIR` is set. -/
theorem readConfig_args_witness :
    joinWith " " ["--clean", "", "--format=plain"] = spacedEnv "PG_DUMP_DATA_ARGS" ∧
    joinWith " " ["--verbose\t--clean"] = spacedEnv "PG_RESTORE_ARGS" ∧
    ∃ config, readConfig exampleEnv "/tmp" = Result.ok config ∧
      config.dumpArgs = ["--clean", "--format=plain"] :=
  ⟨((readConfig_args spacedEnv "/tmp").1
      { host := "", port := "8090", dir := "/tmp", dumpfileExt := "dump.sql"
        dumpArgs := ["--clean", "", "--format=plain"]
        restoreArgs := ["--verbose\t--clean"] } (by decide)).2.2.1 (by decide),
   ((readConfig_args spacedEnv "/tmp").1
      { host := "", port := "8090", dir := "/tmp", dumpfileExt := "dump.sql"
        dumpArgs := ["--clean", "", "--format=plain"]
        restoreArgs := ["--verbose\t--clean"] } (by decide)).2.2.2.2,
   (readConfig_args exampleEnv "/tmp").2.1 (by decide)⟩

end PgDumper
